import Mathlib

/-!
Verification development for the rhobs-synthetics-api probe service.

The Go sources are shallowly embedded: probe records, the label maps attached
to them, the file-based store (`LocalProbeStore`), the ConfigMap-based store
(`KubernetesProbeStore`) and the request-handling `Server` layer become pure
Lean functions over explicit state values.  External collaborators (the
filesystem, the Kubernetes API server, SHA-256, the Kubernetes label-selector
parser) appear as explicit state or as function parameters, so every claim is
settled against the control flow of the repository's own code.
-/

namespace Rhobs

/-! ## Label maps

Go's `map[string]string` (the generated `v1.LabelsSchema`) is embedded as an
association list with first-match lookup and replace-or-append insertion, so
that maps built by the embedded code keep one entry per key. -/

abbrev Labels := List (String × String)

/-- Lookup of a key in a label map (Go map indexing `m[k]` with `ok` flag). -/
def Labels.find : Labels → String → Option String
  | [], _ => none
  | (k2, v) :: rest, k => if k2 = k then some v else Labels.find rest k

/-- Assignment `m[k] = v` on a Go map: replaces the first binding of `k`,
appends a fresh binding otherwise. -/
def Labels.insert : Labels → String → String → Labels
  | [], k, v => [(k, v)]
  | (k2, v2) :: rest, k, v =>
    if k2 = k then (k, v) :: rest else (k2, v2) :: Labels.insert rest k v

/-- Overlaying a label map onto a base map: `for k, v := range extra do base[k] = v`. -/
def Labels.insertAll (base extra : Labels) : Labels :=
  extra.foldl (fun acc kv => Labels.insert acc kv.1 kv.2) base

@[simp] theorem Labels.find_nil (k : String) : Labels.find [] k = none := rfl

@[simp] theorem Labels.find_cons (k2 v : String) (rest : Labels) (k : String) :
    Labels.find ((k2, v) :: rest) k = if k2 = k then some v else Labels.find rest k := rfl

theorem Labels.find_insert_self (ls : Labels) (k v : String) :
    Labels.find (Labels.insert ls k v) k = some v := by
  induction ls with
  | nil => simp [Labels.insert]
  | cons hd tl ih =>
    obtain ⟨k2, v2⟩ := hd
    by_cases h : k2 = k <;> simp [Labels.insert, h, ih]

theorem Labels.find_insert_ne (ls : Labels) (k v k2 : String) (h : k ≠ k2) :
    Labels.find (Labels.insert ls k v) k2 = Labels.find ls k2 := by
  induction ls with
  | nil => simp [Labels.insert, h]
  | cons hd tl ih =>
    obtain ⟨k3, v3⟩ := hd
    by_cases h3 : k3 = k
    · subst h3
      simp [Labels.insert, h]
    · simp only [Labels.insert, if_neg h3, Labels.find_cons]
      by_cases h4 : k3 = k2 <;> simp [h4, ih]

/-! ## System label keys and status literals

Constants from `internal/probestore` and the server package.  The probe
status is a string-typed enum in the generated API (`v1.StatusSchema`), so it
is embedded as `String`: the storage layer's `switch` statements have a
`default` branch for values outside the published enum, and the embedding has
to be able to represent such values. -/

def baseAppLabelKey : String := "app"

def baseAppLabelValue : String := "rhobs-synthetics-probe"

def probeURLHashLabelKey : String := "rhobs-synthetics/static-url-hash"

def probeStatusLabelKey : String := "rhobs-synthetics/status"

def privateProbeLabelKey : String := "private"

namespace v1

def Pending : String := "pending"

def Active : String := "active"

def Failed : String := "failed"

def Terminating : String := "terminating"

def Deleted : String := "deleted"

end v1

/-! ## The probe record

`v1.ProbeObject`: `Id uuid.UUID`, `StaticUrl string`, `Labels *LabelsSchema`,
`Status StatusSchema`.  UUIDs are embedded as strings; the zero UUID
(`uuid.UUID{}`, the "empty id" rejected by the stores) is the empty string.
The nilable labels pointer becomes `Option Labels`. -/

structure ProbeObject where
  id : String
  staticUrl : String
  labels : Option Labels
  status : String
deriving DecidableEq, Repr

/-- Label set of a probe for matching purposes: a nil labels pointer is an
empty label set (`probeLabels := labels.Set{}` when `probe.Labels == nil`). -/
def ProbeObject.labelSet (p : ProbeObject) : Labels := p.labels.getD []

/-! ## Storage error taxonomy

The backends return structured Kubernetes-style errors; the service branches
on `k8serrors.IsNotFound` without inspecting messages. -/

inductive StoreErr where
  | notFound (id : String)
  | alreadyExists (what : String)
  | invalidInput (msg : String)
  | internal (msg : String)
deriving DecidableEq, Repr

/-- The `k8serrors.IsNotFound` test used by the service layer. -/
def StoreErr.isNotFound : StoreErr → Bool
  | .notFound _ => true
  | _ => false

/-! ## Label selectors

The Kubernetes selector grammar and parser (`k8s.io/apimachinery/pkg/labels`)
are external library code.  A parsed selector is embedded as its matching
predicate over label maps, and `labels.Parse` as an arbitrary function
`String → Option Selector` (`none` embeds a parse error); theorems quantify
over it. -/

abbrev Selector := Labels → Bool

/-! ## The file-based store (`LocalProbeStore`)

Each record is one file `<id>.json` in the store directory.  A file name is
embedded structurally: `FileName.json base` stands for the path whose
`filepath.Ext` is `.json` and whose stem is `base`; `FileName.other` covers
every other directory entry (the `.write_test` scratch file, orphaned
`.json.tmp` files, unrelated files), which the walks skip.  File contents are
embedded post-parse: `FileContent.probe p` is a readable file whose JSON
unmarshals to `p`, `FileContent.malformed` is a file that is unreadable or
whose contents fail to unmarshal. -/

inductive FileName where
  | json (base : String)
  | other (name : String)
deriving DecidableEq, Repr

inductive FileContent where
  | probe (p : ProbeObject)
  | malformed
deriving DecidableEq, Repr

/-- The directory of a `LocalProbeStore`, as the list of its entries in walk
order (`filepath.WalkDir` visits lexically; the embedding keeps list order). -/
structure LocalDir where
  files : List (FileName × FileContent)
deriving DecidableEq, Repr

/-- The check `filepath.Ext(path) == ".json"` in the directory walks. -/
def FileName.isJson : FileName → Bool
  | .json _ => true
  | .other _ => false

/-- File path of a probe record: `filepath.Join(dir, probeID.String()+".json")`. -/
def probeFileName (probeID : String) : FileName := .json probeID

/-- Existence check `os.Stat(filePath)` on a directory entry. -/
def LocalDir.statExists (d : LocalDir) (name : FileName) : Bool :=
  d.files.any (fun f => f.1 = name)

/-- Reading a file: `none` when the file does not exist, otherwise its content. -/
def LocalDir.read (d : LocalDir) (name : FileName) : Option FileContent :=
  (d.files.find? (fun f => f.1 = name)).map (·.2)

/-- Atomic replacement of an existing file (write temp file, rename over the
final path): every entry under that name now holds the new content. -/
def LocalDir.write (d : LocalDir) (name : FileName) (c : FileContent) : LocalDir :=
  ⟨d.files.map (fun f => if f.1 = name then (name, c) else f)⟩

/-- Removal `os.Remove(filePath)`. -/
def LocalDir.remove (d : LocalDir) (name : FileName) : LocalDir :=
  ⟨d.files.filter (fun f => f.1 ≠ name)⟩

namespace LocalProbeStore

/-- `LocalProbeStore.GetProbe`: read `<id>.json`; a missing file is the
structured NotFound error, a file that fails to unmarshal is an internal
error, otherwise the parsed record is returned. -/
def getProbe (d : LocalDir) (probeID : String) : Except StoreErr ProbeObject :=
  match d.read (probeFileName probeID) with
  | none => .error (.notFound probeID)
  | some .malformed => .error (.internal "failed to unmarshal probe")
  | some (.probe p) => .ok p

/-- The body of the `filepath.WalkDir` callback in `LocalProbeStore.ListProbes`:
skip non-`.json` entries, skip (log-only) unreadable or malformed files, and
keep each parsed record whose label set (empty when the labels pointer is nil)
matches the selector. -/
def listWalk (sel : Selector) : List (FileName × FileContent) → List ProbeObject
  | [] => []
  | (name, content) :: rest =>
    if name.isJson then
      match content with
      | .malformed => listWalk sel rest
      | .probe p => if sel p.labelSet then p :: listWalk sel rest else listWalk sel rest
    else listWalk sel rest

/-- `LocalProbeStore.ListProbes`: parse the selector (failure is an error
before any directory access), then walk the directory with `listWalk`. -/
def listProbes (parse : String → Option Selector) (d : LocalDir) (selector : String) :
    Except StoreErr (List ProbeObject) :=
  match parse selector with
  | none => .error (.invalidInput "failed to parse label selector")
  | some sel => .ok (listWalk sel d.files)

/-- `LocalProbeStore.ProbeWithURLHashExists`: walk the directory and stop at
the first readable `.json` record whose url-hash label equals the hash. -/
def probeWithURLHashExists (d : LocalDir) (urlHashString : String) : Bool :=
  d.files.any (fun f =>
    f.1.isJson &&
      match f.2 with
      | .probe p => p.labelSet.find probeURLHashLabelKey == some urlHashString
      | .malformed => false)

/-- `LocalProbeStore.CreateProbe`: reject an empty id or empty hash, reject a
duplicate url hash with AlreadyExists, inject the three system labels
(url-hash, app, status — in the source's assignment order), reject an already
existing file, then write `<id>.json` atomically. -/
def createProbe (d : LocalDir) (probe : ProbeObject) (urlHashString : String) :
    Except StoreErr (ProbeObject × LocalDir) :=
  if probe.id = "" then .error (.invalidInput "probe ID cannot be empty")
  else if urlHashString = "" then .error (.invalidInput "URL hash cannot be empty")
  else if probeWithURLHashExists d urlHashString then
    .error (.alreadyExists "probe with same static_url")
  else
    let ls := ((probe.labelSet.insert probeURLHashLabelKey urlHashString).insert
        baseAppLabelKey baseAppLabelValue).insert probeStatusLabelKey probe.status
    let p : ProbeObject := { probe with labels := some ls }
    let fname := probeFileName p.id
    if d.statExists fname then .error (.alreadyExists p.id)
    else .ok (p, ⟨d.files ++ [(fname, .probe p)]⟩)

/-- `LocalProbeStore.UpdateProbe`: reject an empty id, NotFound when the file
is absent, read the existing record, re-inject the app and status system
labels, preserve the stored url-hash label when the caller supplied none, and
overwrite the file atomically. -/
def updateProbe (d : LocalDir) (probe : ProbeObject) :
    Except StoreErr (ProbeObject × LocalDir) :=
  if probe.id = "" then .error (.invalidInput "probe ID cannot be empty")
  else
    let fname := probeFileName probe.id
    if ¬ d.statExists fname then .error (.notFound probe.id)
    else
      match getProbe d probe.id with
      | .error _ => .error (.internal "failed to read existing probe")
      | .ok existingProbe =>
        let ls := (probe.labelSet.insert baseAppLabelKey baseAppLabelValue).insert
            probeStatusLabelKey probe.status
        let ls :=
          match existingProbe.labelSet.find probeURLHashLabelKey with
          | some urlHash =>
            match ls.find probeURLHashLabelKey with
            | some _ => ls
            | none => ls.insert probeURLHashLabelKey urlHash
          | none => ls
        let p : ProbeObject := { probe with labels := some ls }
        .ok (p, d.write fname (.probe p))

/-- `LocalProbeStore.DeleteProbe`: reject an empty id, NotFound when the file
is absent, otherwise remove the file — unconditionally, with no inspection of
the record's status. -/
def deleteProbe (d : LocalDir) (probeID : String) : Except StoreErr LocalDir :=
  if probeID = "" then .error (.invalidInput "probe ID cannot be empty")
  else
    let fname := probeFileName probeID
    if ¬ d.statExists fname then .error (.notFound probeID)
    else .ok (d.remove fname)

end LocalProbeStore

/-! ## The ConfigMap-based store (`KubernetesProbeStore`)

Each record is one ConfigMap named `probe-config-<id>` in the store's
namespace, carrying the record's labels as resource labels and the record
itself under the data key `probe-config.json`.  The namespace's ConfigMaps
are the state; a ConfigMap's data is embedded post-parse (`some p` when the
stored JSON unmarshals to `p`, `none` when it is malformed). -/

structure ConfigMap where
  name : String
  labels : Labels
  data : Option ProbeObject
deriving DecidableEq, Repr

structure KStore where
  configMaps : List ConfigMap
deriving DecidableEq, Repr

/-- `fmt.Sprintf(probeConfigMapNameFormat, probeID)` with format `probe-config-%s`. -/
def probeConfigMapName (probeID : String) : String := "probe-config-" ++ probeID

/-- `ConfigMaps(namespace).Get(name)`: `none` embeds the NotFound error. -/
def KStore.get (k : KStore) (name : String) : Option ConfigMap :=
  k.configMaps.find? (fun cm => cm.name = name)

/-- `ConfigMaps(namespace).Update(cm)`: replace the resource under its name. -/
def KStore.update (k : KStore) (cm : ConfigMap) : KStore :=
  ⟨k.configMaps.map (fun c => if c.name = cm.name then cm else c)⟩

/-- `ConfigMaps(namespace).Delete(name)`: NotFound when no such resource. -/
def KStore.delete (k : KStore) (name : String) : Except StoreErr KStore :=
  if k.configMaps.any (fun cm => cm.name = name) then
    .ok ⟨k.configMaps.filter (fun cm => cm.name ≠ name)⟩
  else .error (.notFound name)

namespace KubernetesProbeStore

/-- `KubernetesProbeStore.GetProbe`: fetch the ConfigMap (passing NotFound
up) and unmarshal the record from its data. -/
def getProbe (k : KStore) (probeID : String) : Except StoreErr ProbeObject :=
  match k.get (probeConfigMapName probeID) with
  | none => .error (.notFound probeID)
  | some cm =>
    match cm.data with
    | none => .error (.internal "failed to unmarshal probe from configmap")
    | some p => .ok p

/-- `KubernetesProbeStore.ListProbes`: delegate the selector to the API
server's native label query over resource labels, then unmarshal each
matching ConfigMap's record, skipping (log-only) malformed ones. -/
def listProbes (parse : String → Option Selector) (k : KStore) (selector : String) :
    Except StoreErr (List ProbeObject) :=
  match parse selector with
  | none => .error (.invalidInput "failed to parse label selector")
  | some sel =>
    .ok (k.configMaps.filterMap (fun cm => if sel cm.labels then cm.data else none))

/-- `KubernetesProbeStore.CreateProbe`: marshal the record, copy its labels
onto the resource, overwrite the app, url-hash and status system labels, and
create the ConfigMap (the API server rejects an existing name with
AlreadyExists). -/
def createProbe (k : KStore) (probe : ProbeObject) (urlHashString : String) :
    Except StoreErr (ProbeObject × KStore) :=
  let name := probeConfigMapName probe.id
  let cmLabels := ((probe.labelSet.insert baseAppLabelKey baseAppLabelValue).insert
      probeURLHashLabelKey urlHashString).insert probeStatusLabelKey probe.status
  match k.get name with
  | some _ => .error (.alreadyExists name)
  | none => .ok (probe, ⟨k.configMaps ++ [⟨name, cmLabels, some probe⟩]⟩)

/-- `KubernetesProbeStore.UpdateProbe`: fetch the current resource (NotFound
passes up), overwrite its data with the marshalled record, overlay the
record's labels onto the existing resource labels, re-assert the app and
status system labels, and write the resource back; the returned record is the
one unmarshalled from the written data. -/
def updateProbe (k : KStore) (probe : ProbeObject) :
    Except StoreErr (ProbeObject × KStore) :=
  let name := probeConfigMapName probe.id
  match k.get name with
  | none => .error (.notFound probe.id)
  | some cm =>
    let cmLabels :=
      match probe.labels with
      | some pls => Labels.insertAll cm.labels pls
      | none => cm.labels
    let cmLabels := (cmLabels.insert baseAppLabelKey baseAppLabelValue).insert
        probeStatusLabelKey probe.status
    let cm2 : ConfigMap := { cm with labels := cmLabels, data := some probe }
    .ok (probe, k.update cm2)

/-- `KubernetesProbeStore.DeleteProbeStorage`: the unconditional resource
removal wrapped by the status-aware deletion logic. -/
def deleteProbeStorage (k : KStore) (probeID : String) : Except StoreErr KStore :=
  k.delete (probeConfigMapName probeID)

/-- `KubernetesProbeStore.DeleteProbe`, the status-aware deletion state
machine: fetch and unmarshal the record, then switch on its status — pending
and failed records are removed immediately, an active record is written back
with status terminating (data and status label updated, resource kept), a
terminating record is left untouched, and any other status falls to the
default branch and is removed immediately. -/
def deleteProbe (k : KStore) (probeID : String) : Except StoreErr KStore :=
  let name := probeConfigMapName probeID
  match k.get name with
  | none => .error (.notFound probeID)
  | some cm =>
    match cm.data with
    | none => .error (.internal "failed to unmarshal probe from configmap")
    | some probe =>
      if probe.status = v1.Pending then deleteProbeStorage k probeID
      else if probe.status = v1.Active then
        let probe2 := { probe with status := v1.Terminating }
        let cm2 : ConfigMap := { cm with
          labels := cm.labels.insert probeStatusLabelKey v1.Terminating,
          data := some probe2 }
        .ok (k.update cm2)
      else if probe.status = v1.Terminating then .ok k
      else if probe.status = v1.Failed then deleteProbeStorage k probeID
      else deleteProbeStorage k probeID

/-- `KubernetesProbeStore.ProbeWithURLHashExists`: a native label query for
`rhobs-synthetics/static-url-hash=<hash>`; true exactly when some ConfigMap
carries that label value. -/
def probeWithURLHashExists (k : KStore) (urlHashString : String) : Bool :=
  k.configMaps.any (fun cm => cm.labels.find probeURLHashLabelKey == some urlHashString)

end KubernetesProbeStore

/-! ## The storage interface and its implementations

The `ProbeStorage` interface, as a record of operations over a backend state
type `σ`.  The server holds one such backend, chosen at startup. -/

structure StoreOps (σ : Type) where
  listProbes : σ → String → Except StoreErr (List ProbeObject)
  getProbe : σ → String → Except StoreErr ProbeObject
  createProbe : σ → ProbeObject → String → Except StoreErr (ProbeObject × σ)
  updateProbe : σ → ProbeObject → Except StoreErr (ProbeObject × σ)
  deleteProbe : σ → String → Except StoreErr σ
  deleteProbeStorage : σ → String → Except StoreErr σ
  probeWithURLHashExists : σ → String → Except StoreErr Bool

/-- The file-based backend behind the `ProbeStorage` interface.  The
repository's `LocalProbeStore` has no `DeleteProbeStorage` method of its own;
that slot surfaces an error. -/
def localStoreOps (parse : String → Option Selector) : StoreOps LocalDir where
  listProbes := LocalProbeStore.listProbes parse
  getProbe := LocalProbeStore.getProbe
  createProbe := LocalProbeStore.createProbe
  updateProbe := LocalProbeStore.updateProbe
  deleteProbe := LocalProbeStore.deleteProbe
  deleteProbeStorage := fun _ _ => .error (.internal "not implemented")
  probeWithURLHashExists := fun d h => .ok (LocalProbeStore.probeWithURLHashExists d h)

/-- The ConfigMap-based backend behind the `ProbeStorage` interface. -/
def kubeStoreOps (parse : String → Option Selector) : StoreOps KStore where
  listProbes := KubernetesProbeStore.listProbes parse
  getProbe := KubernetesProbeStore.getProbe
  createProbe := KubernetesProbeStore.createProbe
  updateProbe := KubernetesProbeStore.updateProbe
  deleteProbe := KubernetesProbeStore.deleteProbe
  deleteProbeStorage := KubernetesProbeStore.deleteProbeStorage
  probeWithURLHashExists := fun k h => .ok (KubernetesProbeStore.probeWithURLHashExists k h)

/-! ## The request-handling layer (`Server`)

Response shapes of the generated API, restricted to the cases the handlers
produce.  A handler returns `Except StoreErr (response × σ)`: the `.error`
case embeds the Go path that returns a non-nil `error` (surfaced by the
routing middleware as an internal failure). -/

inductive ListProbesResponse where
  | ok (probes : List ProbeObject)
  | badRequest (msg : String)
deriving DecidableEq, Repr

inductive CreateProbeResponse where
  | created (p : ProbeObject)
  | conflict (msg : String)
  | serverError (msg : String)
deriving DecidableEq, Repr

inductive UpdateProbeResponse where
  | ok (p : ProbeObject)
  | forbidden (msg : String)
  | notFound (msg : String)
deriving DecidableEq, Repr

/-- Body of a PATCH `/probes/probe_id` request (`v1.UpdateProbeJSONRequestBody`):
both fields optional. -/
structure UpdateProbeBody where
  status : Option String
  labels : Option Labels
deriving DecidableEq, Repr

/-- The url-hash computed by `Server.CreateProbe`:
`hex.EncodeToString(sha256.Sum256(staticUrl))[:63]`.  SHA-256 and hex
encoding are external library code, embedded as the function parameter
`hexSha`; the truncation of the 64-character digest to the 63-character
Kubernetes label-value limit is the service's own. -/
def urlHashOf (hexSha : String → String) (staticUrl : String) : String :=
  (hexSha staticUrl).take 63

/-- The fixed base selector `app=rhobs-synthetics-probe` identifying
system-managed records. -/
def baseSelectorString : String := baseAppLabelKey ++ "=" ++ baseAppLabelValue

namespace Server

/-- `Server.ListProbes`: start from the base selector; when the caller
supplied a non-empty selector, validate it on its own (400 on a parse error,
before any backend call) and append it to the base selector with a comma (the
selector grammar's AND); then query the backend with the final selector. -/
def listProbes (ops : StoreOps σ) (parse : String → Option Selector) (st : σ)
    (labelSelector : Option String) : Except StoreErr (ListProbesResponse × σ) :=
  let base := baseSelectorString
  let userSel := labelSelector.getD ""
  if userSel ≠ "" then
    match parse userSel with
    | none => .ok (.badRequest "invalid label_selector", st)
    | some _ =>
      match ops.listProbes st (base ++ "," ++ userSel) with
      | .error e => .error e
      | .ok probes => .ok (.ok probes, st)
  else
    match ops.listProbes st base with
    | .error e => .error e
    | .ok probes => .ok (.ok probes, st)

/-- `Server.CreateProbe`: hash the static url, check `ProbeWithURLHashExists`
(409 conflict on a hit, leaving storage untouched), otherwise build the
record with a fresh id (`uuid.New()`, embedded as the `newId` parameter) and
initial status pending, and delegate to the backend's `CreateProbe` (a
backend failure becomes a 500 response). -/
def createProbe (ops : StoreOps σ) (hexSha : String → String) (newId : String)
    (st : σ) (staticUrl : String) (labels : Option Labels) :
    Except StoreErr (CreateProbeResponse × σ) :=
  let urlHashString := urlHashOf hexSha staticUrl
  match ops.probeWithURLHashExists st urlHashString with
  | .error e => .error e
  | .ok true => .ok (.conflict ("a probe for static_url already exists: " ++ staticUrl), st)
  | .ok false =>
    let probeToStore : ProbeObject :=
      { id := newId, staticUrl := staticUrl, labels := labels, status := v1.Pending }
    match ops.createProbe st probeToStore urlHashString with
    | .error _ => .ok (.serverError "failed to create probe", st)
    | .ok (createdProbe, st2) => .ok (.created createdProbe, st2)

/-- `Server.UpdateProbe` (the handler in the sources): fetch the record (404
on NotFound), copy the request's status — and only its status — onto it; when
the new status is the deletion-intent literal `deleted`, remove the record
via `DeleteProbeStorage` and return the in-memory record; otherwise persist
via the backend's `UpdateProbe`.  The request body's labels field is never
read. -/
def updateProbe (ops : StoreOps σ) (st : σ) (probeId : String)
    (body : UpdateProbeBody) : Except StoreErr (UpdateProbeResponse × σ) :=
  match ops.getProbe st probeId with
  | .error e =>
    if e.isNotFound then .ok (.notFound ("probe with ID " ++ probeId ++ " not found"), st)
    else .error e
  | .ok existingProbe =>
    match body.status with
    | some s =>
      let existingProbe := { existingProbe with status := s }
      if s = v1.Deleted then
        match ops.deleteProbeStorage st probeId with
        | .error e => .error e
        | .ok st2 => .ok (.ok existingProbe, st2)
      else
        match ops.updateProbe st existingProbe with
        | .error e => .error e
        | .ok (updatedProbe, st2) => .ok (.ok updatedProbe, st2)
    | none =>
      match ops.updateProbe st existingProbe with
      | .error e => .error e
      | .ok (updatedProbe, st2) => .ok (.ok updatedProbe, st2)

end Server

/-! ## Label protection (spec-modelled)

The protected system label keys, and the pure validation applied by the
update handler. -/

def protectedLabelKeys : List String :=
  [baseAppLabelKey, probeStatusLabelKey, probeURLHashLabelKey, privateProbeLabelKey]

/-- Modelled from the spec: the pure label-protection validation
`validateProtectedLabels` of §4.5 is absent from the sources — only its test
`Test_validateProtectedLabels` is present.  Per the spec, an update may not
introduce or change any reserved label key: every protected key supplied in
the proposed set must already exist in the old set with an identical value.
A protected key absent from the proposed set is unconstrained (the test
accepts an empty proposed set against a populated old set), and the test
additionally lists the `private` key as protected, so it is included.
Returns the first offending protected key, `none` when the update is
acceptable. -/
def findRejectedProtectedKey (newLabels oldLabels : Labels) : Option String :=
  protectedLabelKeys.find? (fun k =>
    match newLabels.find k with
    | some v => decide (oldLabels.find k ≠ some v)
    | none => false)

/-- Modelled from the spec: the current `Server.UpdateProbe` handler with
label protection is absent from the sources — only its tests (the 403 cases
of `TestUpdateProbe`) are present.  Per §4.4: fetch the record (404 on
NotFound), validate the proposed labels against the stored labels and reject
the whole update with a 403 protected-label error leaving storage untouched,
otherwise apply the request's labels and status to the in-memory record;
a deletion-intent status removes the record via `DeleteProbeStorage`, any
other change persists via `UpdateProbe`. -/
def Server.updateProbeProtected (ops : StoreOps σ) (st : σ) (probeId : String)
    (body : UpdateProbeBody) : Except StoreErr (UpdateProbeResponse × σ) :=
  match ops.getProbe st probeId with
  | .error e =>
    if e.isNotFound then .ok (.notFound ("probe with ID " ++ probeId ++ " not found"), st)
    else .error e
  | .ok existingProbe =>
    let validated : Except String ProbeObject :=
      match body.labels with
      | none => .ok existingProbe
      | some newLabels =>
        match findRejectedProtectedKey newLabels existingProbe.labelSet with
        | some k => .error ("creation of system-managed label " ++ k ++ " is forbidden")
        | none => .ok { existingProbe with labels := some newLabels }
    match validated with
    | .error msg => .ok (.forbidden msg, st)
    | .ok probe =>
      match body.status with
      | some s =>
        let probe := { probe with status := s }
        if s = v1.Deleted then
          match ops.deleteProbeStorage st probeId with
          | .error e => .error e
          | .ok st2 => .ok (.ok probe, st2)
        else
          match ops.updateProbe st probe with
          | .error e => .error e
          | .ok (updatedProbe, st2) => .ok (.ok updatedProbe, st2)
      | none =>
        match ops.updateProbe st probe with
        | .error e => .error e
        | .ok (updatedProbe, st2) => .ok (.ok updatedProbe, st2)

/-! ## Lemmas about the directory and ConfigMap state -/

theorem LocalDir.statExists_of_read_some (d : LocalDir) (name : FileName)
    (c : FileContent) (h : d.read name = some c) : d.statExists name = true := by
  unfold LocalDir.read at h
  rcases ho : d.files.find? (fun f => f.1 = name) with _ | f
  · rw [ho] at h
    simp at h
  · have hmem := List.mem_of_find?_eq_some ho
    have hp := List.find?_some ho
    exact List.any_eq_true.mpr ⟨f, hmem, hp⟩

theorem LocalDir.read_remove_self (d : LocalDir) (name : FileName) :
    (d.remove name).read name = none := by
  unfold LocalDir.remove LocalDir.read
  rw [List.find?_eq_none.mpr]
  · rfl
  · intro x hx
    have hne := (List.mem_filter.mp hx).2
    simp only [decide_eq_true_eq] at hne ⊢
    exact hne

theorem LocalDir.statExists_remove_self (d : LocalDir) (name : FileName) :
    (d.remove name).statExists name = false := by
  unfold LocalDir.remove LocalDir.statExists
  rw [List.any_eq_false]
  intro x hx
  have hne := (List.mem_filter.mp hx).2
  simp only [decide_eq_true_eq] at hne ⊢
  exact hne

theorem LocalDir.read_append_of_not_exists (d : LocalDir) (name : FileName)
    (c : FileContent) (h : d.statExists name = false) :
    (LocalDir.mk (d.files ++ [(name, c)])).read name = some c := by
  unfold LocalDir.statExists at h
  unfold LocalDir.read
  have hn : d.files.find? (fun f => f.1 = name) = none :=
    List.find?_eq_none.mpr (fun x hx => by
      have := List.any_eq_false.mp h x hx
      simpa using this)
  simp [List.find?_append, hn, List.find?_cons]

theorem find?_replaceFile (l : List (FileName × FileContent)) (name : FileName)
    (c : FileContent) (h : l.any (fun f => f.1 = name) = true) :
    (l.map (fun f => if f.1 = name then (name, c) else f)).find?
      (fun f => f.1 = name) = some (name, c) := by
  induction l with
  | nil => simp at h
  | cons hd tl ih =>
    by_cases h1 : hd.1 = name
    · simp [List.map_cons, h1, List.find?_cons]
    · rw [List.any_cons] at h
      simp only [h1, decide_False, Bool.false_or] at h
      simpa [List.map_cons, h1, List.find?_cons] using ih h

theorem LocalDir.read_write_self (d : LocalDir) (name : FileName) (c : FileContent)
    (h : d.statExists name = true) : (d.write name c).read name = some c := by
  unfold LocalDir.statExists at h
  unfold LocalDir.write LocalDir.read
  rw [find?_replaceFile d.files name c h]
  rfl

theorem KStore.any_of_get_some (k : KStore) (n : String) (cm : ConfigMap)
    (h : k.get n = some cm) : k.configMaps.any (fun c => c.name = n) = true := by
  unfold KStore.get at h
  have hmem := List.mem_of_find?_eq_some h
  have hp := List.find?_some h
  exact List.any_eq_true.mpr ⟨cm, hmem, hp⟩

theorem KStore.get_filter_self (l : List ConfigMap) (n : String) :
    (KStore.mk (l.filter (fun c => c.name ≠ n))).get n = none := by
  unfold KStore.get
  rw [List.find?_eq_none.mpr]
  intro x hx
  have hne := (List.mem_filter.mp hx).2
  simp only [decide_eq_true_eq] at hne ⊢
  exact hne

theorem KStore.name_of_get_some (k : KStore) (n : String) (cm : ConfigMap)
    (h : k.get n = some cm) : cm.name = n := by
  unfold KStore.get at h
  have hp := List.find?_some h
  simpa using hp

theorem KStore.delete_of_get_some (k : KStore) (n : String) (cm : ConfigMap)
    (h : k.get n = some cm) :
    k.delete n = .ok ⟨k.configMaps.filter (fun c => c.name ≠ n)⟩ := by
  unfold KStore.delete
  rw [KStore.any_of_get_some k n cm h]
  simp

theorem find?_replaceCM (l : List ConfigMap) (n : String) (cm2 : ConfigMap)
    (h : l.any (fun c => c.name = n) = true) (hname : cm2.name = n) :
    (l.map (fun c => if c.name = cm2.name then cm2 else c)).find?
      (fun c => c.name = n) = some cm2 := by
  induction l with
  | nil => simp at h
  | cons hd tl ih =>
    by_cases h1 : hd.name = n
    · have h2 : hd.name = cm2.name := by rw [hname]; exact h1
      simp [List.map_cons, h2, List.find?_cons, hname]
    · have h2 : ¬ hd.name = cm2.name := by rw [hname]; exact h1
      rw [List.any_cons] at h
      simp only [h1, decide_False, Bool.false_or] at h
      simpa [List.map_cons, h2, List.find?_cons, h1] using ih h

theorem KStore.get_update_self (k : KStore) (n : String) (cm cm2 : ConfigMap)
    (h : k.get n = some cm) (hname : cm2.name = n) :
    (k.update cm2).get n = some cm2 := by
  unfold KStore.update KStore.get
  exact find?_replaceCM k.configMaps n cm2 (KStore.any_of_get_some k n cm h) hname

/-! ## Claims -/

/-- C10.  In the file-based store, `DeleteProbe` removes the record's file
unconditionally, whatever the record's status (in particular for an active
record): afterwards `GetProbe` fails with NotFound, and deleting the same id
a second time fails with NotFound instead of succeeding as a no-op. -/
theorem claim_C10 (d : LocalDir) (probeID : String) (q : ProbeObject)
    (hid : probeID ≠ "") (hget : LocalProbeStore.getProbe d probeID = .ok q) :
    LocalProbeStore.deleteProbe d probeID = .ok (d.remove (probeFileName probeID)) ∧
    LocalProbeStore.getProbe (d.remove (probeFileName probeID)) probeID =
      .error (.notFound probeID) ∧
    LocalProbeStore.deleteProbe (d.remove (probeFileName probeID)) probeID =
      .error (.notFound probeID) := by
  unfold LocalProbeStore.getProbe at hget
  have hread : d.read (probeFileName probeID) = some (.probe q) := by
    cases hr : d.read (probeFileName probeID) with
    | none => rw [hr] at hget; simp at hget
    | some c =>
      cases c with
      | malformed => rw [hr] at hget; simp at hget
      | probe p => rw [hr] at hget; simp at hget; rw [hget]
  have hstat := LocalDir.statExists_of_read_some d (probeFileName probeID) _ hread
  refine ⟨?_, ?_, ?_⟩
  · unfold LocalProbeStore.deleteProbe
    simp [hid, hstat]
  · unfold LocalProbeStore.getProbe
    rw [LocalDir.read_remove_self]
  · unfold LocalProbeStore.deleteProbe
    simp [hid, LocalDir.statExists_remove_self]

theorem claim_C10_witness :
    LocalProbeStore.deleteProbe
        (LocalDir.mk [(probeFileName "a", .probe ⟨"a", "u", none, v1.Active⟩)]) "a" =
      .ok (LocalDir.mk []) ∧
    LocalProbeStore.getProbe (LocalDir.mk []) "a" = .error (.notFound "a") ∧
    LocalProbeStore.deleteProbe (LocalDir.mk []) "a" = .error (.notFound "a") := by
  have h := claim_C10 (LocalDir.mk [(probeFileName "a", .probe ⟨"a", "u", none, v1.Active⟩)])
    "a" ⟨"a", "u", none, v1.Active⟩ (by decide) (by rfl)
  simpa [LocalDir.remove, probeFileName, List.filter] using h

/-- C1.  The status-aware `DeleteProbe` of the structured-resource store
follows the record's current status: pending, failed, and any unrecognized
status remove the record from storage; active keeps the record and writes it
back with status terminating (in the data and in the status label); a record
already terminating is left untouched, the operation still succeeding. -/
theorem claim_C1 (k : KStore) (probeID : String) (cm : ConfigMap) (probe : ProbeObject)
    (hget : k.get (probeConfigMapName probeID) = some cm) (hdata : cm.data = some probe) :
    (probe.status ≠ v1.Active → probe.status ≠ v1.Terminating →
      ∃ k2, KubernetesProbeStore.deleteProbe k probeID = .ok k2 ∧
        k2.get (probeConfigMapName probeID) = none) ∧
    (probe.status = v1.Active →
      ∃ k2 cm2, KubernetesProbeStore.deleteProbe k probeID = .ok k2 ∧
        k2.get (probeConfigMapName probeID) = some cm2 ∧
        cm2.data = some { probe with status := v1.Terminating } ∧
        cm2.labels = cm.labels.insert probeStatusLabelKey v1.Terminating) ∧
    (probe.status = v1.Terminating →
      KubernetesProbeStore.deleteProbe k probeID = .ok k) := by
  have hdel : KubernetesProbeStore.deleteProbeStorage k probeID =
      .ok ⟨k.configMaps.filter (fun c => c.name ≠ probeConfigMapName probeID)⟩ :=
    KStore.delete_of_get_some k _ cm hget
  refine ⟨?_, ?_, ?_⟩
  · intro hA hT
    refine ⟨⟨k.configMaps.filter (fun c => c.name ≠ probeConfigMapName probeID)⟩, ?_,
      KStore.get_filter_self _ _⟩
    unfold KubernetesProbeStore.deleteProbe
    simp only [hget, hdata]
    by_cases hp : probe.status = v1.Pending
    · rw [if_pos hp]
      exact hdel
    · rw [if_neg hp, if_neg hA, if_neg hT]
      split
      · exact hdel
      · exact hdel
  · intro hA
    have hp : probe.status ≠ v1.Pending := by rw [hA]; decide
    refine ⟨k.update { cm with
        labels := cm.labels.insert probeStatusLabelKey v1.Terminating,
        data := some { probe with status := v1.Terminating } },
      { cm with
        labels := cm.labels.insert probeStatusLabelKey v1.Terminating,
        data := some { probe with status := v1.Terminating } }, ?_, ?_, rfl, rfl⟩
    · unfold KubernetesProbeStore.deleteProbe
      simp only [hget, hdata]
      rw [if_neg hp, if_pos hA]
    · exact KStore.get_update_self k _ cm _ hget (KStore.name_of_get_some k _ cm hget)
  · intro hT
    unfold KubernetesProbeStore.deleteProbe
    simp only [hget, hdata]
    have hp : probe.status ≠ v1.Pending := by rw [hT]; decide
    have hA : probe.status ≠ v1.Active := by rw [hT]; decide
    rw [if_neg hp, if_neg hA, if_pos hT]

theorem claim_C1_witness :
    (∃ k2, KubernetesProbeStore.deleteProbe
        (KStore.mk [⟨probeConfigMapName "b", [], some ⟨"b", "u", none, "weird-status"⟩⟩]) "b" =
      .ok k2 ∧ k2.get (probeConfigMapName "b") = none) ∧
    (∃ k2 cm2, KubernetesProbeStore.deleteProbe
        (KStore.mk [⟨probeConfigMapName "c", [], some ⟨"c", "u", none, v1.Active⟩⟩]) "c" =
      .ok k2 ∧ k2.get (probeConfigMapName "c") = some cm2 ∧
      cm2.data = some ⟨"c", "u", none, v1.Terminating⟩ ∧
      cm2.labels = Labels.insert [] probeStatusLabelKey v1.Terminating) ∧
    KubernetesProbeStore.deleteProbe
        (KStore.mk [⟨probeConfigMapName "d", [], some ⟨"d", "u", none, v1.Terminating⟩⟩]) "d" =
      .ok (KStore.mk [⟨probeConfigMapName "d", [], some ⟨"d", "u", none, v1.Terminating⟩⟩]) := by
  refine ⟨?_, ?_, ?_⟩
  · exact (claim_C1 (KStore.mk [⟨probeConfigMapName "b", [], some ⟨"b", "u", none, "weird-status"⟩⟩])
      "b" ⟨probeConfigMapName "b", [], some ⟨"b", "u", none, "weird-status"⟩⟩
      ⟨"b", "u", none, "weird-status"⟩ rfl rfl).1 (by decide) (by decide)
  · exact (claim_C1 (KStore.mk [⟨probeConfigMapName "c", [], some ⟨"c", "u", none, v1.Active⟩⟩])
      "c" ⟨probeConfigMapName "c", [], some ⟨"c", "u", none, v1.Active⟩⟩
      ⟨"c", "u", none, v1.Active⟩ rfl rfl).2.1 rfl
  · exact (claim_C1 (KStore.mk [⟨probeConfigMapName "d", [], some ⟨"d", "u", none, v1.Terminating⟩⟩])
      "d" ⟨probeConfigMapName "d", [], some ⟨"d", "u", none, v1.Terminating⟩⟩
      ⟨"d", "u", none, v1.Terminating⟩ rfl rfl).2.2 rfl

theorem listWalk_eq_filterMap (sel : Selector) (l : List (FileName × FileContent)) :
    LocalProbeStore.listWalk sel l = l.filterMap (fun f =>
      match f with
      | (.json _, .probe p) => if sel p.labelSet then some p else none
      | _ => none) := by
  induction l with
  | nil => rfl
  | cons hd tl ih =>
    obtain ⟨name, content⟩ := hd
    cases name with
    | json b =>
      cases content with
      | probe p =>
        by_cases hs : sel p.labelSet <;>
          simp [LocalProbeStore.listWalk, FileName.isJson, List.filterMap_cons, hs, ih]
      | malformed =>
        simp [LocalProbeStore.listWalk, FileName.isJson, List.filterMap_cons, ih]
    | other nm =>
      simp [LocalProbeStore.listWalk, FileName.isJson, List.filterMap_cons, ih]

/-- C7.  For every directory state and every selector the parser accepts, the
file-based `ListProbes` returns exactly the records of the readable,
well-formed `.json` entries whose label set (the empty set when the record's
labels are nil) satisfies the selector: non-record files and unreadable or
malformed files are skipped without failing the listing, and the listing is
`.ok` — never an error — even when no record matches (the filter can be
empty). -/
theorem claim_C7 (parse : String → Option Selector) (d : LocalDir) (s : String)
    (sel : Selector) (hparse : parse s = some sel) :
    LocalProbeStore.listProbes parse d s =
      .ok (d.files.filterMap (fun f =>
        match f with
        | (.json _, .probe p) => if sel p.labelSet then some p else none
        | _ => none)) := by
  unfold LocalProbeStore.listProbes
  rw [hparse]
  simp only []
  rw [listWalk_eq_filterMap]

theorem claim_C7_witness :
    LocalProbeStore.listProbes (fun _ => some (fun ls => ls.find "env" == some "prod"))
        (LocalDir.mk
          [(.json "a", .probe ⟨"a", "u1", some [("env", "prod")], v1.Pending⟩),
           (.json "b", .probe ⟨"b", "u2", some [("env", "dev")], v1.Active⟩),
           (.json "c", .probe ⟨"c", "u3", none, v1.Pending⟩),
           (.json "bad", .malformed),
           (.other ".write_test", .probe ⟨"x", "u4", some [("env", "prod")], v1.Pending⟩)])
        "env=prod" =
      .ok [⟨"a", "u1", some [("env", "prod")], v1.Pending⟩] := by
  rw [claim_C7 (fun _ => some (fun ls => ls.find "env" == some "prod"))
    (LocalDir.mk
      [(.json "a", .probe ⟨"a", "u1", some [("env", "prod")], v1.Pending⟩),
       (.json "b", .probe ⟨"b", "u2", some [("env", "dev")], v1.Active⟩),
       (.json "c", .probe ⟨"c", "u3", none, v1.Pending⟩),
       (.json "bad", .malformed),
       (.other ".write_test", .probe ⟨"x", "u4", some [("env", "prod")], v1.Pending⟩)])
    "env=prod" (fun ls => ls.find "env" == some "prod") rfl]
  rfl

/-- C8.  For every existing record, the file-based `UpdateProbe` re-injects
the system labels into the persisted record — the app label and the status
label carrying the new status — and, when the caller's probe supplies no
url-hash label while the stored record has one, the stored url-hash value is
preserved unchanged; every other caller-supplied label and every other field
(id, static url, status) is written exactly as given, and the persisted
record is what a subsequent `GetProbe` returns. -/
theorem claim_C8 (d : LocalDir) (p q : ProbeObject)
    (hid : p.id ≠ "")
    (hget : LocalProbeStore.getProbe d p.id = .ok q) :
    ∃ w d2, LocalProbeStore.updateProbe d p = .ok (w, d2) ∧
      w.id = p.id ∧ w.staticUrl = p.staticUrl ∧ w.status = p.status ∧
      (∃ wls, w.labels = some wls ∧
        wls.find baseAppLabelKey = some baseAppLabelValue ∧
        wls.find probeStatusLabelKey = some p.status ∧
        (p.labelSet.find probeURLHashLabelKey = none →
          ∀ h, q.labelSet.find probeURLHashLabelKey = some h →
            wls.find probeURLHashLabelKey = some h) ∧
        (∀ k, k ≠ baseAppLabelKey → k ≠ probeStatusLabelKey →
          k ≠ probeURLHashLabelKey → wls.find k = p.labelSet.find k)) ∧
      LocalProbeStore.getProbe d2 p.id = .ok w := by
  have hread : d.read (probeFileName p.id) = some (.probe q) := by
    unfold LocalProbeStore.getProbe at hget
    cases hr : d.read (probeFileName p.id) with
    | none => rw [hr] at hget; simp at hget
    | some c =>
      cases c with
      | malformed => rw [hr] at hget; simp at hget
      | probe r => rw [hr] at hget; simp at hget; rw [hget]
  have hstat := LocalDir.statExists_of_read_some d (probeFileName p.id) _ hread
  have happ_ne_status : baseAppLabelKey ≠ probeStatusLabelKey := by decide
  have happ_ne_hash : baseAppLabelKey ≠ probeURLHashLabelKey := by decide
  have hstatus_ne_hash : probeStatusLabelKey ≠ probeURLHashLabelKey := by decide
  have hhash_ne_app : probeURLHashLabelKey ≠ baseAppLabelKey := by decide
  have hhash_ne_status : probeURLHashLabelKey ≠ probeStatusLabelKey := by decide
  have hls0 :
      (((p.labelSet.insert baseAppLabelKey baseAppLabelValue).insert
          probeStatusLabelKey p.status).find probeURLHashLabelKey) =
        p.labelSet.find probeURLHashLabelKey := by
    rw [Labels.find_insert_ne _ _ _ _ hstatus_ne_hash,
      Labels.find_insert_ne _ _ _ _ happ_ne_hash]
  unfold LocalProbeStore.updateProbe
  rw [if_neg hid]
  simp only [hstat, Bool.not_true, Bool.false_eq_true, if_false, hget]
  cases hq : q.labelSet.find probeURLHashLabelKey with
  | none =>
    simp only [hq]
    refine ⟨_, _, rfl, rfl, rfl, rfl, ⟨_, rfl, ?_, ?_, ?_, ?_⟩, ?_⟩
    · rw [Labels.find_insert_ne _ _ _ _ (Ne.symm happ_ne_status),
        Labels.find_insert_self]
    · rw [Labels.find_insert_self]
    · intro _ h hcontra
      exact absurd hcontra (by simp)
    · intro k hka hks hkh
      rw [Labels.find_insert_ne _ _ _ _ (fun he => hks he.symm),
        Labels.find_insert_ne _ _ _ _ (fun he => hka he.symm)]
    · unfold LocalProbeStore.getProbe
      rw [LocalDir.read_write_self _ _ _ hstat]
  | some urlHash =>
    simp only [hq, hls0]
    cases hph : p.labelSet.find probeURLHashLabelKey with
    | none =>
      simp only []
      refine ⟨_, _, rfl, rfl, rfl, rfl, ⟨_, rfl, ?_, ?_, ?_, ?_⟩, ?_⟩
      · rw [Labels.find_insert_ne _ _ _ _ hhash_ne_app,
          Labels.find_insert_ne _ _ _ _ (Ne.symm happ_ne_status),
          Labels.find_insert_self]
      · rw [Labels.find_insert_ne _ _ _ _ hhash_ne_status, Labels.find_insert_self]
      · intro _ h hh
        injection hh with hh2
        rw [← hh2]
        exact Labels.find_insert_self _ _ _
      · intro k hka hks hkh
        rw [Labels.find_insert_ne _ _ _ _ (fun he => hkh he.symm),
          Labels.find_insert_ne _ _ _ _ (fun he => hks he.symm),
          Labels.find_insert_ne _ _ _ _ (fun he => hka he.symm)]
      · unfold LocalProbeStore.getProbe
        rw [LocalDir.read_write_self _ _ _ hstat]
    | some suppliedHash =>
      simp only []
      refine ⟨_, _, rfl, rfl, rfl, rfl, ⟨_, rfl, ?_, ?_, ?_, ?_⟩, ?_⟩
      · rw [Labels.find_insert_ne _ _ _ _ (Ne.symm happ_ne_status),
          Labels.find_insert_self]
      · rw [Labels.find_insert_self]
      · intro hcontra
        exact absurd hcontra (by simp)
      · intro k hka hks hkh
        rw [Labels.find_insert_ne _ _ _ _ (fun he => hks he.symm),
          Labels.find_insert_ne _ _ _ _ (fun he => hka he.symm)]
      · unfold LocalProbeStore.getProbe
        rw [LocalDir.read_write_self _ _ _ hstat]

theorem claim_C8_witness :
    ∃ w d2, LocalProbeStore.updateProbe
        (LocalDir.mk [(probeFileName "a",
          .probe ⟨"a", "u", some [("rhobs-synthetics/static-url-hash", "oldhash")], v1.Pending⟩)])
        ⟨"a", "u", some [("team", "sre")], v1.Active⟩ = .ok (w, d2) ∧
      w.id = "a" ∧ w.staticUrl = "u" ∧ w.status = v1.Active ∧
      (∃ wls, w.labels = some wls ∧
        wls.find baseAppLabelKey = some baseAppLabelValue ∧
        wls.find probeStatusLabelKey = some v1.Active ∧
        wls.find probeURLHashLabelKey = some "oldhash" ∧
        wls.find "team" = some "sre") ∧
      LocalProbeStore.getProbe d2 "a" = .ok w := by
  obtain ⟨w, d2, h1, h2, h3, h4, ⟨wls, h5, h6, h7, h8, h9⟩, h10⟩ :=
    claim_C8
      (LocalDir.mk [(probeFileName "a",
        .probe ⟨"a", "u", some [("rhobs-synthetics/static-url-hash", "oldhash")], v1.Pending⟩)])
      ⟨"a", "u", some [("team", "sre")], v1.Active⟩
      ⟨"a", "u", some [("rhobs-synthetics/static-url-hash", "oldhash")], v1.Pending⟩
      (by decide) rfl
  refine ⟨w, d2, h1, h2, h3, h4, ⟨wls, h5, h6, ?_, ?_, ?_⟩, h10⟩
  · exact h7
  · exact h8 (by decide) "oldhash" (by decide)
  · exact (h9 "team" (by decide) (by decide) (by decide)).trans (by decide)

/-- C6.  For every list request the service queries the backend with the
fixed base selector `app=rhobs-synthetics-probe`, ANDed (comma-joined in the
selector grammar) with the caller's selector when a non-empty one is given;
the caller's selector is validated on its own before composition, and when it
fails to parse the service returns a 400 invalid-selector response without
calling the backend — the response is the same for every backend, the state
is returned untouched. -/
theorem claim_C6 {σ : Type} (ops : StoreOps σ) (parse : String → Option Selector)
    (st : σ) (u : String) (hu : u ≠ "") :
    (parse u = none →
      Server.listProbes ops parse st (some u) =
        .ok (.badRequest "invalid label_selector", st)) ∧
    (∀ sel, parse u = some sel →
      Server.listProbes ops parse st (some u) =
        match ops.listProbes st (baseSelectorString ++ "," ++ u) with
        | .error e => .error e
        | .ok probes => .ok (.ok probes, st)) ∧
    (Server.listProbes ops parse st none =
      match ops.listProbes st baseSelectorString with
      | .error e => .error e
      | .ok probes => .ok (.ok probes, st)) := by
  refine ⟨?_, ?_, ?_⟩
  · intro hp
    unfold Server.listProbes
    simp only [Option.getD_some, if_pos hu, hp]
  · intro sel hp
    unfold Server.listProbes
    simp only [Option.getD_some, if_pos hu, hp]
  · unfold Server.listProbes
    simp only [Option.getD_none]
    rw [if_neg (by simp)]

theorem claim_C6_witness :
    (Server.listProbes (kubeStoreOps (fun _ => none)) (fun _ => none)
        (KStore.mk []) (some "invalid selector") =
      .ok (.badRequest "invalid label_selector", KStore.mk [])) ∧
    (Server.listProbes (kubeStoreOps (fun _ => some (fun _ => true)))
        (fun _ => some (fun _ => true)) (KStore.mk []) (some "env=prod") =
      .ok (.ok [], KStore.mk [])) := by
  constructor
  · exact (claim_C6 (kubeStoreOps (fun _ => none)) (fun _ => none)
      (KStore.mk []) "invalid selector" (by decide)).1 rfl
  · exact ((claim_C6 (kubeStoreOps (fun _ => some (fun _ => true)))
      (fun _ => some (fun _ => true)) (KStore.mk []) "env=prod" (by decide)).2.1
      (fun _ => true) rfl).trans rfl

/-- Inversion of a successful create through the service over the file-based
store: the created record, the resulting directory, and the two guards that
must have been false. -/
theorem serverCreate_local_ok_inv (parse : String → Option Selector)
    (hexSha : String → String) (newId : String) (d : LocalDir) (staticUrl : String)
    (labels : Option Labels) (p1 : ProbeObject) (d1 : LocalDir)
    (h : Server.createProbe (localStoreOps parse) hexSha newId d staticUrl labels =
      .ok (.created p1, d1)) :
    p1 = { id := newId, staticUrl := staticUrl,
           labels := some ((((labels.getD [] : Labels)).insert probeURLHashLabelKey
               (urlHashOf hexSha staticUrl)).insert baseAppLabelKey
               baseAppLabelValue |>.insert probeStatusLabelKey v1.Pending),
           status := v1.Pending } ∧
    d1 = ⟨d.files ++ [(probeFileName newId, .probe p1)]⟩ ∧
    d.statExists (probeFileName newId) = false ∧
    LocalProbeStore.probeWithURLHashExists d (urlHashOf hexSha staticUrl) = false := by
  unfold Server.createProbe at h
  simp only [localStoreOps] at h
  cases hb : LocalProbeStore.probeWithURLHashExists d (urlHashOf hexSha staticUrl) with
  | true =>
    rw [hb] at h
    simp at h
  | false =>
    rw [hb] at h
    simp only [] at h
    cases hc : LocalProbeStore.createProbe d
        { id := newId, staticUrl := staticUrl, labels := labels, status := v1.Pending }
        (urlHashOf hexSha staticUrl) with
    | error e =>
      rw [hc] at h
      simp at h
    | ok pr =>
      rw [hc] at h
      simp only [Except.ok.injEq, Prod.mk.injEq, CreateProbeResponse.created.injEq] at h
      obtain ⟨hp1, hd1⟩ := h
      unfold LocalProbeStore.createProbe at hc
      by_cases h1 : newId = ""
      · simp [h1] at hc
      · rw [if_neg h1] at hc
        by_cases h2 : urlHashOf hexSha staticUrl = ""
        · simp [h2] at hc
        · rw [if_neg h2] at hc
          rw [hb] at hc
          simp only [Bool.false_eq_true, if_false] at hc
          by_cases h4 : d.statExists (probeFileName newId) = true
          · simp [h4] at hc
          · have h4f : d.statExists (probeFileName newId) = false := by
              cases hv : d.statExists (probeFileName newId)
              · rfl
              · exact absurd hv h4
            rw [h4f] at hc
            simp only [Bool.false_eq_true, if_false, Except.ok.injEq] at hc
            have hp1A : p1 =
                { id := newId, staticUrl := staticUrl,
                  labels := some ((((labels.getD [] : Labels)).insert probeURLHashLabelKey
                      (urlHashOf hexSha staticUrl)).insert baseAppLabelKey
                      baseAppLabelValue |>.insert probeStatusLabelKey v1.Pending),
                  status := v1.Pending } := by
              rw [← hp1, ← hc]
              rfl
            have hd1A : d1 = ⟨d.files ++ [(probeFileName newId, .probe p1)]⟩ := by
              rw [← hd1, ← hc, hp1A]
              rfl
            exact ⟨hp1A, hd1A, h4f, rfl⟩

/-- C4.  When a create request for some static url has been stored, a second
create request for the same static url — which yields the same 63-character
truncated hash — fails with the 409 conflict outcome, and the stored state is
returned unchanged: nothing is created or modified. -/
theorem claim_C4 (parse : String → Option Selector) (hexSha : String → String)
    (d : LocalDir) (staticUrl : String) (labels1 labels2 : Option Labels)
    (newId1 newId2 : String) (p1 : ProbeObject) (d1 : LocalDir)
    (hfirst : Server.createProbe (localStoreOps parse) hexSha newId1 d staticUrl labels1 =
      .ok (.created p1, d1)) :
    Server.createProbe (localStoreOps parse) hexSha newId2 d1 staticUrl labels2 =
      .ok (.conflict ("a probe for static_url already exists: " ++ staticUrl), d1) := by
  obtain ⟨hp1, hd1, hstat, hex⟩ :=
    serverCreate_local_ok_inv parse hexSha newId1 d staticUrl labels1 p1 d1 hfirst
  have hfind : p1.labelSet.find probeURLHashLabelKey = some (urlHashOf hexSha staticUrl) := by
    rw [hp1]
    simp only [ProbeObject.labelSet, Option.getD_some]
    rw [Labels.find_insert_ne _ _ _ _ (by decide),
      Labels.find_insert_ne _ _ _ _ (by decide), Labels.find_insert_self]
  have hex1 : LocalProbeStore.probeWithURLHashExists d1 (urlHashOf hexSha staticUrl) = true := by
    rw [hd1]
    unfold LocalProbeStore.probeWithURLHashExists
    simp [List.any_append, List.any_cons, probeFileName, FileName.isJson, hfind]
  unfold Server.createProbe
  simp only [localStoreOps]
  rw [hex1]

set_option maxRecDepth 8192 in
theorem claim_C4_witness :
    Server.createProbe (localStoreOps (fun _ => some (fun _ => true)))
        (fun _ => "deadbeef") "b"
        (LocalDir.mk [(.json "a", .probe
          ⟨"a", "https://example.com/1",
            some [("rhobs-synthetics/static-url-hash", "deadbeef"),
                  ("app", "rhobs-synthetics-probe"),
                  ("rhobs-synthetics/status", "pending")], "pending"⟩)])
        "https://example.com/1" (some [("team", "sre")]) =
      .ok (.conflict ("a probe for static_url already exists: " ++ "https://example.com/1"),
        LocalDir.mk [(.json "a", .probe
          ⟨"a", "https://example.com/1",
            some [("rhobs-synthetics/static-url-hash", "deadbeef"),
                  ("app", "rhobs-synthetics-probe"),
                  ("rhobs-synthetics/status", "pending")], "pending"⟩)]) :=
  claim_C4 (fun _ => some (fun _ => true)) (fun _ => "deadbeef") (LocalDir.mk [])
    "https://example.com/1" none (some [("team", "sre")]) "a" "b"
    ⟨"a", "https://example.com/1",
      some [("rhobs-synthetics/static-url-hash", "deadbeef"),
            ("app", "rhobs-synthetics-probe"),
            ("rhobs-synthetics/status", "pending")], "pending"⟩
    (LocalDir.mk [(.json "a", .probe
      ⟨"a", "https://example.com/1",
        some [("rhobs-synthetics/static-url-hash", "deadbeef"),
              ("app", "rhobs-synthetics-probe"),
              ("rhobs-synthetics/status", "pending")], "pending"⟩)])
    (by rfl)

/-- C5.  After a valid create request succeeds, a get with the created
record's id returns the created record itself: equal in id and static url,
with status pending, and with the three injected system labels present in its
label set — the app label, the status label (mirroring status pending), and
the url-hash label (carrying the truncated hash of the static url). -/
theorem claim_C5 (parse : String → Option Selector) (hexSha : String → String)
    (d : LocalDir) (staticUrl : String) (labels : Option Labels)
    (newId : String) (p1 : ProbeObject) (d1 : LocalDir)
    (hcreate : Server.createProbe (localStoreOps parse) hexSha newId d staticUrl labels =
      .ok (.created p1, d1)) :
    LocalProbeStore.getProbe d1 newId = .ok p1 ∧
    p1.id = newId ∧ p1.staticUrl = staticUrl ∧ p1.status = v1.Pending ∧
    p1.labelSet.find baseAppLabelKey = some baseAppLabelValue ∧
    p1.labelSet.find probeStatusLabelKey = some v1.Pending ∧
    p1.labelSet.find probeURLHashLabelKey = some (urlHashOf hexSha staticUrl) := by
  obtain ⟨hp1, hd1, hstat, hex⟩ :=
    serverCreate_local_ok_inv parse hexSha newId d staticUrl labels p1 d1 hcreate
  refine ⟨?_, ?_, ?_, ?_, ?_, ?_, ?_⟩
  · rw [hd1]
    unfold LocalProbeStore.getProbe
    rw [LocalDir.read_append_of_not_exists d _ _ hstat]
  · rw [hp1]
  · rw [hp1]
  · rw [hp1]
  · rw [hp1]
    simp only [ProbeObject.labelSet, Option.getD_some]
    rw [Labels.find_insert_ne _ _ _ _ (by decide), Labels.find_insert_self]
  · rw [hp1]
    simp only [ProbeObject.labelSet, Option.getD_some]
    rw [Labels.find_insert_self]
  · rw [hp1]
    simp only [ProbeObject.labelSet, Option.getD_some]
    rw [Labels.find_insert_ne _ _ _ _ (by decide),
      Labels.find_insert_ne _ _ _ _ (by decide), Labels.find_insert_self]

set_option maxRecDepth 8192 in
theorem claim_C5_witness :
    LocalProbeStore.getProbe
        (LocalDir.mk [(.json "a", .probe
          ⟨"a", "https://example.com/1",
            some [("env", "prod"),
                  ("rhobs-synthetics/static-url-hash", "deadbeef"),
                  ("app", "rhobs-synthetics-probe"),
                  ("rhobs-synthetics/status", "pending")], "pending"⟩)]) "a" =
      .ok ⟨"a", "https://example.com/1",
        some [("env", "prod"),
              ("rhobs-synthetics/static-url-hash", "deadbeef"),
              ("app", "rhobs-synthetics-probe"),
              ("rhobs-synthetics/status", "pending")], "pending"⟩ :=
  (claim_C5 (fun _ => some (fun _ => true)) (fun _ => "deadbeef") (LocalDir.mk [])
    "https://example.com/1" (some [("env", "prod")]) "a"
    ⟨"a", "https://example.com/1",
      some [("env", "prod"),
            ("rhobs-synthetics/static-url-hash", "deadbeef"),
            ("app", "rhobs-synthetics-probe"),
            ("rhobs-synthetics/status", "pending")], "pending"⟩
    (LocalDir.mk [(.json "a", .probe
      ⟨"a", "https://example.com/1",
        some [("env", "prod"),
              ("rhobs-synthetics/static-url-hash", "deadbeef"),
              ("app", "rhobs-synthetics-probe"),
              ("rhobs-synthetics/status", "pending")], "pending"⟩)])
    (by rfl)).1

/-- C9.  The update handler in the sources applies only the request's status
field to the fetched record: its result is the same for any two request
bodies with equal status fields — the labels field is never read — and, for a
non-deletion status, the record handed to the backend's `UpdateProbe` (and
persisted as ConfigMap data by the structured-resource backend) is the stored
record with only its status replaced, so it carries the previously stored
labels whatever labels the caller supplied. -/
theorem claim_C9 :
    (∀ (σ : Type) (ops : StoreOps σ) (st : σ) (probeId : String)
      (b1 b2 : UpdateProbeBody), b1.status = b2.status →
      Server.updateProbe ops st probeId b1 = Server.updateProbe ops st probeId b2) ∧
    (∀ (parse : String → Option Selector) (k : KStore) (probeId : String)
      (body : UpdateProbeBody) (q : ProbeObject) (s : String),
      body.status = some s → s ≠ v1.Deleted →
      KubernetesProbeStore.getProbe k probeId = .ok q →
      Server.updateProbe (kubeStoreOps parse) k probeId body =
        match KubernetesProbeStore.updateProbe k { q with status := s } with
        | .error e => .error e
        | .ok (updatedProbe, k2) => .ok (.ok updatedProbe, k2)) := by
  constructor
  · intro σ ops st probeId b1 b2 h
    unfold Server.updateProbe
    rw [h]
  · intro parse k probeId body q s hs hsne hget
    unfold Server.updateProbe
    simp only [kubeStoreOps]
    rw [hget]
    simp only [hs]
    rw [if_neg hsne]
    cases hu : KubernetesProbeStore.updateProbe k
        { id := q.id, staticUrl := q.staticUrl, labels := q.labels, status := s } with
    | error e => rfl
    | ok pr =>
      obtain ⟨a, b⟩ := pr
      rfl

theorem claim_C9_witness :
    (Server.updateProbe (kubeStoreOps (fun _ => some (fun _ => true)))
        (KStore.mk [⟨probeConfigMapName "i", [("app", "rhobs-synthetics-probe")],
          some ⟨"i", "u", some [("env", "prod")], v1.Pending⟩⟩]) "i"
        ⟨some v1.Active, some [("app", "injected"), ("x", "y")]⟩ =
      Server.updateProbe (kubeStoreOps (fun _ => some (fun _ => true)))
        (KStore.mk [⟨probeConfigMapName "i", [("app", "rhobs-synthetics-probe")],
          some ⟨"i", "u", some [("env", "prod")], v1.Pending⟩⟩]) "i"
        ⟨some v1.Active, none⟩) ∧
    (Server.updateProbe (kubeStoreOps (fun _ => some (fun _ => true)))
        (KStore.mk [⟨probeConfigMapName "i", [("app", "rhobs-synthetics-probe")],
          some ⟨"i", "u", some [("env", "prod")], v1.Pending⟩⟩]) "i"
        ⟨some v1.Active, some [("app", "injected"), ("x", "y")]⟩ =
      match KubernetesProbeStore.updateProbe
          (KStore.mk [⟨probeConfigMapName "i", [("app", "rhobs-synthetics-probe")],
            some ⟨"i", "u", some [("env", "prod")], v1.Pending⟩⟩])
          ⟨"i", "u", some [("env", "prod")], v1.Active⟩ with
      | .error e => .error e
      | .ok (updatedProbe, k2) => .ok (.ok updatedProbe, k2)) := by
  constructor
  · exact claim_C9.1 KStore (kubeStoreOps (fun _ => some (fun _ => true)))
      (KStore.mk [⟨probeConfigMapName "i", [("app", "rhobs-synthetics-probe")],
        some ⟨"i", "u", some [("env", "prod")], v1.Pending⟩⟩]) "i"
      ⟨some v1.Active, some [("app", "injected"), ("x", "y")]⟩
      ⟨some v1.Active, none⟩ rfl
  · exact claim_C9.2 (fun _ => some (fun _ => true))
      (KStore.mk [⟨probeConfigMapName "i", [("app", "rhobs-synthetics-probe")],
        some ⟨"i", "u", some [("env", "prod")], v1.Pending⟩⟩]) "i"
      ⟨some v1.Active, some [("app", "injected"), ("x", "y")]⟩
      ⟨"i", "u", some [("env", "prod")], v1.Pending⟩ v1.Active rfl (by decide) rfl

/-- C3 (counterexample).  On an update request whose new status is the
deletion-intent literal, the response is not the record as it stood in
storage immediately before removal: with a stored record of status pending,
the handler first writes the requested status onto its in-memory copy, so the
returned record carries status deleted while the record in storage just
before removal carried status pending. -/
theorem claim_C3_counterexample :
    KubernetesProbeStore.getProbe
        (KStore.mk [⟨probeConfigMapName "cex", [], some ⟨"cex", "u", none, v1.Pending⟩⟩])
        "cex" = .ok ⟨"cex", "u", none, v1.Pending⟩ ∧
    Server.updateProbe (kubeStoreOps (fun _ => some (fun _ => true)))
        (KStore.mk [⟨probeConfigMapName "cex", [], some ⟨"cex", "u", none, v1.Pending⟩⟩])
        "cex" ⟨some v1.Deleted, none⟩ =
      .ok (.ok ⟨"cex", "u", none, v1.Deleted⟩, KStore.mk []) ∧
    (⟨"cex", "u", none, v1.Deleted⟩ : ProbeObject) ≠ ⟨"cex", "u", none, v1.Pending⟩ := by
  refine ⟨rfl, rfl, ?_⟩
  decide

/-- C3 (amended).  On an update request on an existing record whose new
status is the deletion-intent literal `deleted`, the service calls the
unconditional storage removal `DeleteProbeStorage` instead of the backend's
`UpdateProbe` — the resulting state is exactly the `DeleteProbeStorage`
result and the record is gone from storage — and the response is the record
as it existed immediately before removal with its status field set to the
requested `deleted` literal. -/
theorem claim_C3 (parse : String → Option Selector) (k : KStore) (probeId : String)
    (body : UpdateProbeBody) (q : ProbeObject)
    (hs : body.status = some v1.Deleted)
    (hget : KubernetesProbeStore.getProbe k probeId = .ok q) :
    ∃ k2, Server.updateProbe (kubeStoreOps parse) k probeId body =
        .ok (.ok { q with status := v1.Deleted }, k2) ∧
      KubernetesProbeStore.deleteProbeStorage k probeId = .ok k2 ∧
      k2.get (probeConfigMapName probeId) = none := by
  have hcm : ∃ cm, k.get (probeConfigMapName probeId) = some cm := by
    unfold KubernetesProbeStore.getProbe at hget
    cases hg : k.get (probeConfigMapName probeId) with
    | none => rw [hg] at hget; simp at hget
    | some cm => exact ⟨cm, rfl⟩
  obtain ⟨cm, hcm⟩ := hcm
  have hdel : KubernetesProbeStore.deleteProbeStorage k probeId =
      .ok ⟨k.configMaps.filter (fun c => c.name ≠ probeConfigMapName probeId)⟩ :=
    KStore.delete_of_get_some k _ cm hcm
  refine ⟨_, ?_, hdel, KStore.get_filter_self _ _⟩
  unfold Server.updateProbe
  simp only [kubeStoreOps]
  rw [hget]
  simp only [hs]
  rw [if_true, hdel]

theorem claim_C3_witness :
    ∃ k2, Server.updateProbe (kubeStoreOps (fun _ => some (fun _ => true)))
        (KStore.mk [⟨probeConfigMapName "w3", [], some ⟨"w3", "u", none, v1.Terminating⟩⟩])
        "w3" ⟨some v1.Deleted, some [("x", "y")]⟩ =
      .ok (.ok ⟨"w3", "u", none, v1.Deleted⟩, k2) ∧
      KubernetesProbeStore.deleteProbeStorage
        (KStore.mk [⟨probeConfigMapName "w3", [], some ⟨"w3", "u", none, v1.Terminating⟩⟩])
        "w3" = .ok k2 ∧
      k2.get (probeConfigMapName "w3") = none :=
  claim_C3 (fun _ => some (fun _ => true))
    (KStore.mk [⟨probeConfigMapName "w3", [], some ⟨"w3", "u", none, v1.Terminating⟩⟩])
    "w3" ⟨some v1.Deleted, some [("x", "y")]⟩ ⟨"w3", "u", none, v1.Terminating⟩ rfl rfl

/-- C2.  Label protection on update (spec-modelled handler, see
`Server.updateProbeProtected`): a proposed label set that introduces a
protected key absent from the stored labels, or changes the value of a
protected key present there, makes the service reject the whole update with
the protected-label (403) error and hand back the storage state untouched;
a proposed set whose protected keys all carry values identical to the stored
ones — in particular one touching only non-protected keys — is never rejected
with the protected-label error. -/
theorem claim_C2 {σ : Type} (ops : StoreOps σ) (st : σ) (probeId : String)
    (body : UpdateProbeBody) (q : ProbeObject) (L : Labels)
    (hget : ops.getProbe st probeId = .ok q) (hlab : body.labels = some L) :
    ((∃ k ∈ protectedLabelKeys, ∃ v, L.find k = some v ∧ q.labelSet.find k ≠ some v) →
      ∃ msg, Server.updateProbeProtected ops st probeId body = .ok (.forbidden msg, st)) ∧
    ((∀ k ∈ protectedLabelKeys, ∀ v, L.find k = some v → q.labelSet.find k = some v) →
      ∀ m st2, Server.updateProbeProtected ops st probeId body ≠ .ok (.forbidden m, st2)) := by
  constructor
  · intro hviol
    have hsome : (findRejectedProtectedKey L q.labelSet).isSome := by
      unfold findRejectedProtectedKey
      rw [List.find?_isSome]
      obtain ⟨k0, hk0, v, hv, hne⟩ := hviol
      refine ⟨k0, hk0, ?_⟩
      rw [hv]
      simpa using hne
    obtain ⟨k0, hfind⟩ := Option.isSome_iff_exists.mp hsome
    refine ⟨"creation of system-managed label " ++ k0 ++ " is forbidden", ?_⟩
    unfold Server.updateProbeProtected
    simp only [hget, hlab, hfind]
  · intro hacc m st2 hcontra
    have hnone : findRejectedProtectedKey L q.labelSet = none := by
      unfold findRejectedProtectedKey
      rw [List.find?_eq_none]
      intro k hk
      cases hL : L.find k with
      | none => simp
      | some v =>
        have hq := hacc k hk v hL
        simp [hq]
    unfold Server.updateProbeProtected at hcontra
    simp only [hget, hlab, hnone] at hcontra
    cases hbs : body.status with
    | none =>
      rw [hbs] at hcontra
      cases hup : ops.updateProbe st { q with labels := some L } with
      | error e => rw [hup] at hcontra; simp at hcontra
      | ok pr =>
        obtain ⟨a, b⟩ := pr
        rw [hup] at hcontra
        simp at hcontra
    | some s =>
      rw [hbs] at hcontra
      simp only [] at hcontra
      by_cases hsd : s = v1.Deleted
      · rw [if_pos hsd] at hcontra
        cases hdp : ops.deleteProbeStorage st probeId with
        | error e => rw [hdp] at hcontra; simp at hcontra
        | ok st3 => rw [hdp] at hcontra; simp at hcontra
      · rw [if_neg hsd] at hcontra
        cases hup : ops.updateProbe st { q with labels := some L, status := s } with
        | error e => rw [hup] at hcontra; simp at hcontra
        | ok pr =>
          obtain ⟨a, b⟩ := pr
          rw [hup] at hcontra
          simp at hcontra

theorem claim_C2_witness :
    (∃ msg, Server.updateProbeProtected (kubeStoreOps (fun _ => some (fun _ => true)))
        (KStore.mk [⟨probeConfigMapName "w2", [("app", "rhobs-synthetics-probe")],
          some ⟨"w2", "u", some [("app", "rhobs-synthetics-probe")], v1.Pending⟩⟩]) "w2"
        ⟨none, some [("app", "forged")]⟩ =
      .ok (.forbidden msg,
        KStore.mk [⟨probeConfigMapName "w2", [("app", "rhobs-synthetics-probe")],
          some ⟨"w2", "u", some [("app", "rhobs-synthetics-probe")], v1.Pending⟩⟩])) ∧
    Server.updateProbeProtected (kubeStoreOps (fun _ => some (fun _ => true)))
        (KStore.mk [⟨probeConfigMapName "w2", [("app", "rhobs-synthetics-probe")],
          some ⟨"w2", "u", some [("app", "rhobs-synthetics-probe")], v1.Pending⟩⟩]) "w2"
        ⟨none, some [("app", "rhobs-synthetics-probe"), ("team", "sre")]⟩ ≠
      .ok (.forbidden "creation of system-managed label app is forbidden",
        KStore.mk [⟨probeConfigMapName "w2", [("app", "rhobs-synthetics-probe")],
          some ⟨"w2", "u", some [("app", "rhobs-synthetics-probe")], v1.Pending⟩⟩]) := by
  constructor
  · exact (claim_C2 (kubeStoreOps (fun _ => some (fun _ => true)))
      (KStore.mk [⟨probeConfigMapName "w2", [("app", "rhobs-synthetics-probe")],
        some ⟨"w2", "u", some [("app", "rhobs-synthetics-probe")], v1.Pending⟩⟩]) "w2"
      ⟨none, some [("app", "forged")]⟩
      ⟨"w2", "u", some [("app", "rhobs-synthetics-probe")], v1.Pending⟩
      [("app", "forged")] rfl rfl).1
      ⟨"app", by decide, "forged", by decide, by decide⟩
  · exact (claim_C2 (kubeStoreOps (fun _ => some (fun _ => true)))
      (KStore.mk [⟨probeConfigMapName "w2", [("app", "rhobs-synthetics-probe")],
        some ⟨"w2", "u", some [("app", "rhobs-synthetics-probe")], v1.Pending⟩⟩]) "w2"
      ⟨none, some [("app", "rhobs-synthetics-probe"), ("team", "sre")]⟩
      ⟨"w2", "u", some [("app", "rhobs-synthetics-probe")], v1.Pending⟩
      [("app", "rhobs-synthetics-probe"), ("team", "sre")] rfl rfl).2
      (by decide) "creation of system-managed label app is forbidden"
      (KStore.mk [⟨probeConfigMapName "w2", [("app", "rhobs-synthetics-probe")],
        some ⟨"w2", "u", some [("app", "rhobs-synthetics-probe")], v1.Pending⟩⟩])

end Rhobs
